import Mathlib

/-!
Verification of the stake_monitor transaction indexer.

Shallow embedding of the core of tx_fetcher.py (flow aggregation,
trade classification, buy-log refinement, ledger replay) and of
eth_price_oracle.py (5-minute bucket price cache, provider fallback
chain, retrying HTTP GET).  All monetary quantities are modelled as
exact rationals; the Python built-in round(x, n) (round-half-to-even)
is modelled by roundHalfEven below, and Python float truthiness
(0.0 is falsy) is modelled explicitly where the source relies on it.
-/

/-- Python round-half-to-even of a rational to the nearest integer. -/
def roundHalfEven (x : ℚ) : ℤ :=
  if x - (⌊x⌋ : ℚ) < 1/2 then ⌊x⌋
  else if (1 : ℚ)/2 < x - (⌊x⌋ : ℚ) then ⌊x⌋ + 1
  else if ⌊x⌋ % 2 = 0 then ⌊x⌋ else ⌊x⌋ + 1

/-- Python round(x, ndigits) on exact rationals. -/
def pyRound (x : ℚ) (ndigits : ℕ) : ℚ :=
  (roundHalfEven (x * 10 ^ ndigits) : ℚ) / 10 ^ ndigits

/-- Python float truthiness of an Optional float: None and 0.0 are falsy. -/
def pyTruthyOpt (x : Option ℚ) : Bool :=
  match x with
  | none => false
  | some v => v != 0

/-- Python "x or y" on floats: returns y when x == 0.0, else x. -/
def pyOr (x y : ℚ) : ℚ := if x = 0 then y else x

/-- Python "x or y" where x is an Optional float. -/
def pyOptOr (x : Option ℚ) (y : ℚ) : ℚ :=
  match x with
  | none => y
  | some v => if v = 0 then y else v

/-- The fixed token contract address constant of tx_fetcher.py, lowercased. -/
def CORTENSOR_TOKEN_ADDRESS : String := "0x8e0eef788350f40255d86dfe8d91ec0ad3a4547f"

/-- Per-(address, tx hash) aggregated ETH flow, as built by
_compute_eth_flows in tx_fetcher.py.  The sources set is modelled as a
list whose membership is what the classifier consults. -/
structure EthFlow where
  eth_in : ℚ
  eth_out : ℚ
  gas_eth : ℚ
  sources : List String
deriving DecidableEq

/-- Per-(address, tx hash) aggregated token flow, as built by
_compute_cor_flows in tx_fetcher.py. -/
structure CorFlow where
  cor_in : ℚ
  cor_out : ℚ
  stake_tag : Option String
  sources : List String
deriving DecidableEq

def emptyEthFlow : EthFlow :=
  { eth_in := 0, eth_out := 0, gas_eth := 0, sources := [] }

def emptyCorFlow : CorFlow :=
  { cor_in := 0, cor_out := 0, stake_tag := none, sources := [] }

/-- _classify_trade of tx_fetcher.py: maps an (ETH flow, token flow)
pair to (trade type, token-tax estimate, tax rate), evaluating the
precedence rules in the exact source order. -/
def classify_trade (ef : EthFlow) (cf : CorFlow) : String × ℚ × ℚ :=
  if cf.stake_tag = some "stake" then ("stake", 0, 0)
  else if cf.stake_tag = some "unstake" then ("unstake", 0, 0)
  else if "staking_reward" ∈ ef.sources ++ cf.sources ∧ cf.cor_in > 0 ∧
      ef.eth_out = 0 ∧ ef.eth_in = 0 then
    ("staking_reward", 0, 0)
  else if "node_reward" ∈ ef.sources ++ cf.sources ∧ cf.cor_in > 0 ∧
      ef.eth_out = 0 ∧ ef.eth_in = 0 then
    ("node_reward", 0, 0)
  else if ("internal_in" ∈ ef.sources ++ cf.sources ∨
      "internal_out" ∈ ef.sources ++ cf.sources) ∧
      (cf.cor_in > 0 ∨ cf.cor_out > 0) then
    ("internal_transfer", 0, 0)
  else if cf.cor_in > 0 ∧ ef.eth_out > 0 ∧ ef.eth_in = 0 then
    ("buy", cf.cor_in * (5/100) / (95/100), 5/100)
  else if cf.cor_out > 0 ∧ ef.eth_in > 0 ∧ ef.eth_out = 0 then
    ("sell", cf.cor_out * (5/100), 5/100)
  else if cf.cor_in > 0 ∧ ef.eth_in = 0 ∧ ef.eth_out = 0 ∧
      "incoming_external" ∈ ef.sources ++ cf.sources then
    ("airdrop_or_other", 0, 0)
  else if cf.cor_in > 0 ∨ cf.cor_out > 0 then ("transfer", 0, 0)
  else if ef.eth_in ≠ 0 ∨ ef.eth_out ≠ 0 then ("eth_transfer", 0, 0)
  else ("unknown", 0, 0)

/-- One normal transaction record, with the wei value and gas cost
already converted to ETH as _compute_eth_flows does. -/
structure NormalTx where
  hash : String
  txfrom : String
  txto : String
  value_eth : ℚ
  gas_eth : ℚ
deriving DecidableEq

/-- The EthFlow produced by _compute_eth_flows for an address whose
only record with this hash is one normal transaction: direction and
gas attribution, then internal-transfer tagging against the user's
own address set. -/
def compute_eth_flow_single (t : NormalTx) (addr : String)
    (my_addresses : List String) : EthFlow :=
  let e1 : EthFlow :=
    if t.txfrom = addr then
      { eth_in := 0, eth_out := t.value_eth, gas_eth := t.gas_eth, sources := [] }
    else if t.txto = addr then
      { eth_in := t.value_eth, eth_out := 0, gas_eth := 0, sources := [] }
    else
      { eth_in := 0, eth_out := 0, gas_eth := 0, sources := [] }
  let e2 : EthFlow :=
    if t.txfrom = addr ∧ t.txto ∈ my_addresses ∧ t.txto ≠ addr then
      { e1 with sources := e1.sources ++ ["internal_out", "internal"] }
    else e1
  if t.txto = addr ∧ t.txfrom ∈ my_addresses ∧ t.txfrom ≠ addr then
    { e2 with sources := e2.sources ++ ["internal_in", "internal"] }
  else e2

/-- One ERC-20 Transfer event log with its topic addresses and data
value already decoded, as the loop in _refine_buy_with_logs does. -/
structure RawLog where
  transactionHash : String
  logfrom : String
  logto : String
  value : ℚ
deriving DecidableEq

/-- The dictionary returned by _refine_buy_with_logs on success. -/
structure RefineResult where
  net_to_user_cor : ℚ
  router_fee_cor : ℚ
  router_received_cor : ℚ
  actual_tax_cor : ℚ
  gross_from_pool_cor : ℚ
  unit_price_usd : ℚ
  tax_usd : ℚ
  router_fee_usd : ℚ
deriving DecidableEq

/-- The transfers local of _refine_buy_with_logs: the fetched logs
filtered to the transaction hash under refinement. -/
def transfersOf (logs : List RawLog) (tx_hash : String) : List RawLog :=
  logs.filter (fun lg => lg.transactionHash == tx_hash)

/-- The router_received_cor local of _refine_buy_with_logs: total of
transfers whose recipient is the router. -/
def routerReceivedOf (transfers : List RawLog) (router_addr : String) : ℚ :=
  ((transfers.filter (fun t => t.logto == router_addr)).map RawLog.value).sum

/-- The actual_tax_cor local of _refine_buy_with_logs: total of
transfers whose recipient is the token contract itself. -/
def actualTaxOf (transfers : List RawLog) : ℚ :=
  ((transfers.filter (fun t => t.logto == CORTENSOR_TOKEN_ADDRESS)).map
    RawLog.value).sum

/-- The router_fee_cor local of _refine_buy_with_logs: total of
transfers sent by the router to someone other than the subject. -/
def routerFeeOf (transfers : List RawLog) (router_addr my_addr : String) : ℚ :=
  ((transfers.filter
    (fun t => t.logfrom == router_addr && t.logto != my_addr)).map
      RawLog.value).sum

/-- _refine_buy_with_logs of tx_fetcher.py.  The fetched argument is
none when the log fetch raised, some logs otherwise; the eth_out_usd
argument is always a number at the only call site.  The router is the
sender of the first transfer leg whose recipient is the subject. -/
def refine_buy_with_logs (fetched : Option (List RawLog))
    (tx_hash my_addr : String) (eth_out_usd : ℚ) : Option RefineResult :=
  match fetched with
  | none => none
  | some logs =>
    if logs.isEmpty then none
    else if (transfersOf logs tx_hash).isEmpty then none
    else
      match (transfersOf logs tx_hash).filter (fun t => t.logto == my_addr) with
      | [] => none
      | firstLeg :: restLegs =>
        if routerReceivedOf (transfersOf logs tx_hash) firstLeg.logfrom
            + actualTaxOf (transfersOf logs tx_hash) ≤ 0 then none
        else
          some { net_to_user_cor := ((firstLeg :: restLegs).map RawLog.value).sum,
                 router_fee_cor :=
                   routerFeeOf (transfersOf logs tx_hash) firstLeg.logfrom my_addr,
                 router_received_cor :=
                   routerReceivedOf (transfersOf logs tx_hash) firstLeg.logfrom,
                 actual_tax_cor := actualTaxOf (transfersOf logs tx_hash),
                 gross_from_pool_cor :=
                   routerReceivedOf (transfersOf logs tx_hash) firstLeg.logfrom
                     + actualTaxOf (transfersOf logs tx_hash),
                 unit_price_usd :=
                   eth_out_usd /
                     (routerReceivedOf (transfersOf logs tx_hash) firstLeg.logfrom
                       + actualTaxOf (transfersOf logs tx_hash)),
                 tax_usd :=
                   actualTaxOf (transfersOf logs tx_hash) *
                     (eth_out_usd /
                       (routerReceivedOf (transfersOf logs tx_hash) firstLeg.logfrom
                         + actualTaxOf (transfersOf logs tx_hash))),
                 router_fee_usd :=
                   routerFeeOf (transfersOf logs tx_hash) firstLeg.logfrom my_addr *
                     (eth_out_usd /
                       (routerReceivedOf (transfersOf logs tx_hash) firstLeg.logfrom
                         + actualTaxOf (transfersOf logs tx_hash))) }

/-- The buy-related row fields computed in index_transactions_for_addresses. -/
structure BuyEstimates where
  tax_cor : ℚ
  unit_price_usd : Option ℚ
  tax_usd : ℚ
  router_fee_cor : ℚ
  router_fee_usd : ℚ
  cor_gross_from_pool : Option ℚ
deriving DecidableEq

/-- First-pass buy estimates of index_transactions_for_addresses:
5-percent back-out, unit price from the gross token estimate. -/
def buy_first_pass (cor_in tax_cor0 eth_out_usd : ℚ) : BuyEstimates :=
  let gross_tokens_est := cor_in + tax_cor0
  let unit0 : Option ℚ :=
    if gross_tokens_est > 0 then some (eth_out_usd / gross_tokens_est) else none
  let tax_usd0 : ℚ :=
    match unit0 with
    | some u => tax_cor0 * u
    | none => 0
  { tax_cor := tax_cor0, unit_price_usd := unit0, tax_usd := tax_usd0,
    router_fee_cor := 0, router_fee_usd := 0, cor_gross_from_pool := none }

/-- The refinement override of index_transactions_for_addresses: when
the refiner succeeded with a positive gross, replace the first-pass
estimates with the observed values, through Python "x or y" fallbacks
exactly as the source writes them; otherwise keep the first pass. -/
def buy_with_refine (cor_in tax_cor0 eth_out_usd : ℚ)
    (refine : Option RefineResult) : BuyEstimates :=
  let base := buy_first_pass cor_in tax_cor0 eth_out_usd
  match refine with
  | some rf =>
    if rf.gross_from_pool_cor > 0 then
      { tax_cor := pyOr rf.actual_tax_cor 0,
        unit_price_usd := some (pyOr rf.unit_price_usd (pyOptOr base.unit_price_usd 0)),
        tax_usd := pyOr rf.tax_usd base.tax_usd,
        router_fee_cor := pyOr rf.router_fee_cor 0,
        router_fee_usd := pyOr rf.router_fee_usd 0,
        cor_gross_from_pool := some (pyOr rf.gross_from_pool_cor 0) }
    else base
  | none => base

/-- One classified output row, restricted to the fields the running
balance replay of index_transactions_for_addresses reads.  The cor_in
and cor_out fields carry the 8-decimal rounding applied when the row
is emitted. -/
structure Row where
  trade_type : String
  eth_in : ℚ
  eth_out : ℚ
  gas_fee_eth : ℚ
  cor_in : ℚ
  cor_out : ℚ
deriving DecidableEq

/-- Per-address running balances of the replay loop. -/
structure LedgerState where
  eth : ℚ
  cor_wallet : ℚ
  cor_staked : ℚ
deriving DecidableEq

def initState : LedgerState := { eth := 0, cor_wallet := 0, cor_staked := 0 }

/-- One step of the running-balance replay in
index_transactions_for_addresses: ETH delta always includes gas;
stake moves wallet to staked, unstake moves it back, everything else
only moves the wallet. -/
def apply_row (st : LedgerState) (r : Row) : LedgerState :=
  if r.trade_type = "stake" then
    { eth := st.eth + (r.eth_in - r.eth_out - r.gas_fee_eth),
      cor_wallet := st.cor_wallet + (r.cor_in - r.cor_out),
      cor_staked := st.cor_staked + (-(r.cor_in - r.cor_out)) }
  else if r.trade_type = "unstake" then
    { eth := st.eth + (r.eth_in - r.eth_out - r.gas_fee_eth),
      cor_wallet := st.cor_wallet + (r.cor_in - r.cor_out),
      cor_staked := st.cor_staked - (r.cor_in - r.cor_out) }
  else
    { eth := st.eth + (r.eth_in - r.eth_out - r.gas_fee_eth),
      cor_wallet := st.cor_wallet + (r.cor_in - r.cor_out),
      cor_staked := st.cor_staked }

/-- A row annotated with the four running-balance columns, each
rounded to 6 decimal places as the source does when writing them. -/
structure AnnotatedRow where
  row : Row
  eth_balance_after : ℚ
  cor_wallet_after : ℚ
  cor_staked_after : ℚ
  cor_owned_after : ℚ
deriving DecidableEq

/-- Apply one row and produce its annotated output: the owned figure
is derived as wallet plus staked of the post state, then all four
columns are rounded to 6 decimals independently. -/
def annotate (st : LedgerState) (r : Row) : LedgerState × AnnotatedRow :=
  (apply_row st r,
   { row := r,
     eth_balance_after := pyRound (apply_row st r).eth 6,
     cor_wallet_after := pyRound (apply_row st r).cor_wallet 6,
     cor_staked_after := pyRound (apply_row st r).cor_staked 6,
     cor_owned_after :=
       pyRound ((apply_row st r).cor_wallet + (apply_row st r).cor_staked) 6 })

def replayAux (st : LedgerState) : List Row → List AnnotatedRow
  | [] => []
  | r :: rs => (annotate st r).2 :: replayAux (annotate st r).1 rs

/-- The running-balance replay over an address's sorted rows, starting
from the all-zero state. -/
def replay (rows : List Row) : List AnnotatedRow := replayAux initState rows

/-- The 5-minute bucket of _bucket_5min in eth_price_oracle.py. -/
def bucket_5min (ts : ℤ) : ℤ := ts - ts % 300

/-- Outcomes of the three remote price fetch paths of
_get_eth_price_fiat_at_ts: the nearest-sample results of the two
providers (none on failure or empty data) and the raw price list of
the widened-window median fallback. -/
structure OracleFetchEnv where
  coingecko_nearest : Option ℚ
  cryptocompare_nearest : Option ℚ
  coingecko_wide_prices : List ℚ
deriving DecidableEq

/-- _get_eth_price_fiat_at_ts of eth_price_oracle.py for one bucket:
the cached value short-circuits only when Python-truthy (the source
tests the cached float with a bare if); otherwise the providers are
tried in order.  Returns (price, source tag, number of provider
fetches issued). -/
def get_eth_price_fiat (cached : Option ℚ) (env : OracleFetchEnv) :
    ℚ × String × ℕ :=
  if pyTruthyOpt cached then (cached.getD 0, "cache", 0)
  else
    match env.coingecko_nearest with
    | some p => (p, "coingecko", 1)
    | none =>
      match env.cryptocompare_nearest with
      | some p => (p, "cryptocompare", 2)
      | none =>
        let vals := List.insertionSort (· ≤ ·) env.coingecko_wide_prices
        match vals[vals.length / 2]? with
        | some m => (m, "coingecko_median", 3)
        | none => (0, "unavailable", 3)

/-- One HTTP attempt outcome: success with a decoded body, a 429 with
an optional Retry-After value, or any other failure (timeout, 5xx,
malformed body). -/
inductive HttpResp where
  | ok (body : ℚ)
  | rateLimited (retry_after : Option ℚ)
  | fail
deriving DecidableEq

/-- Retry loop of EtherscanClient._get in tx_fetcher.py (the path with
no cache hit): on 429 sleep 1.2 * 2 ^ attempt ignoring Retry-After, on
any other failure sleep 1.0 * 2 ^ attempt; returns the slept
durations and some body on success, none when retries are exhausted
(the source then raises).  The response list gives the outcome of
each attempt in order. -/
def etherscan_get_aux (responses : List HttpResp) : ℕ → ℕ → List ℚ × Option ℚ
  | _, 0 => ([], none)
  | attempt, remaining + 1 =>
    match responses.getD attempt HttpResp.fail with
    | HttpResp.ok b => ([], some b)
    | HttpResp.rateLimited _ =>
      ((12/10 : ℚ) * 2 ^ attempt ::
          (etherscan_get_aux responses (attempt + 1) remaining).1,
        (etherscan_get_aux responses (attempt + 1) remaining).2)
    | HttpResp.fail =>
      ((1 : ℚ) * 2 ^ attempt ::
          (etherscan_get_aux responses (attempt + 1) remaining).1,
        (etherscan_get_aux responses (attempt + 1) remaining).2)

def etherscan_get (responses : List HttpResp) : List ℚ × Option ℚ :=
  etherscan_get_aux responses 0 3

/-- Retry loop of EthPriceOracle._http_get in eth_price_oracle.py: on
429 sleep the server's Retry-After when present, else
1.5 * 2 ^ attempt; on any other failure sleep 1.2 * 2 ^ attempt;
4 attempts by default. -/
def oracle_http_get_aux (responses : List HttpResp) : ℕ → ℕ → List ℚ × Option ℚ
  | _, 0 => ([], none)
  | attempt, remaining + 1 =>
    match responses.getD attempt HttpResp.fail with
    | HttpResp.ok b => ([], some b)
    | HttpResp.rateLimited ra =>
      ((match ra with
        | some v => v
        | none => (15/10 : ℚ) * 2 ^ attempt) ::
          (oracle_http_get_aux responses (attempt + 1) remaining).1,
        (oracle_http_get_aux responses (attempt + 1) remaining).2)
    | HttpResp.fail =>
      ((12/10 : ℚ) * 2 ^ attempt ::
          (oracle_http_get_aux responses (attempt + 1) remaining).1,
        (oracle_http_get_aux responses (attempt + 1) remaining).2)

def oracle_http_get (responses : List HttpResp) : List ℚ × Option ℚ :=
  oracle_http_get_aux responses 0 4

/-! Concrete inputs used by counterexamples and witnesses. -/

/-- Token flow of a small external receipt of 0.0000008 COR. -/
def cexCf1 : CorFlow :=
  { cor_in := 8/10000000, cor_out := 0, stake_tag := none,
    sources := ["incoming_external"] }

/-- Token flow of a 0.0000004 COR transfer into the staking pool. -/
def cexCf2 : CorFlow :=
  { cor_in := 0, cor_out := 4/10000000, stake_tag := some "stake",
    sources := ["self_out"] }

/-- Row for cexCf1 as the indexer emits it: trade type from the
classifier, token amounts rounded to 8 decimals. -/
def cexRow1 : Row :=
  { trade_type := (classify_trade emptyEthFlow cexCf1).1,
    eth_in := 0, eth_out := 0, gas_fee_eth := 0,
    cor_in := pyRound cexCf1.cor_in 8, cor_out := pyRound cexCf1.cor_out 8 }

/-- Row for cexCf2 as the indexer emits it. -/
def cexRow2 : Row :=
  { trade_type := (classify_trade emptyEthFlow cexCf2).1,
    eth_in := 0, eth_out := 0, gas_fee_eth := 0,
    cor_in := pyRound cexCf2.cor_in 8, cor_out := pyRound cexCf2.cor_out 8 }

/-- The value of cexRow1 with classification and rounding evaluated. -/
def cexRowLit1 : Row :=
  { trade_type := "airdrop_or_other", eth_in := 0, eth_out := 0,
    gas_fee_eth := 0, cor_in := 8/10000000, cor_out := 0 }

/-- The value of cexRow2 with classification and rounding evaluated. -/
def cexRowLit2 : Row :=
  { trade_type := "stake", eth_in := 0, eth_out := 0, gas_fee_eth := 0,
    cor_in := 0, cor_out := 4/10000000 }

/-- Ledger state after replaying cexRow1 from the zero state. -/
def cexSt1 : LedgerState :=
  { eth := 0, cor_wallet := 8/10000000, cor_staked := 0 }

/-- Ledger state after further replaying cexRow2. -/
def cexSt2 : LedgerState :=
  { eth := 0, cor_wallet := 4/10000000, cor_staked := 4/10000000 }

def dummyAnnotatedRow : AnnotatedRow :=
  { row := { trade_type := "", eth_in := 0, eth_out := 0, gas_fee_eth := 0,
             cor_in := 0, cor_out := 0 },
    eth_balance_after := 0, cor_wallet_after := 0, cor_staked_after := 0,
    cor_owned_after := 0 }

/-- The second annotated row of the two-row counterexample ledger. -/
def cexAnnotated : AnnotatedRow :=
  (replay [cexRow1, cexRow2]).getD 1 dummyAnnotatedRow

/-- A one-row ledger used as a witness input. -/
def witnessRow : Row :=
  { trade_type := "transfer", eth_in := 0, eth_out := 0, gas_fee_eth := 0,
    cor_in := 1, cor_out := 0 }

def witnessAnnotated : AnnotatedRow :=
  (replay [witnessRow]).getD 0 dummyAnnotatedRow

/-- A stake row used as a witness input. -/
def wStakeRow : Row :=
  { trade_type := "stake", eth_in := 0, eth_out := 0, gas_fee_eth := 0,
    cor_in := 0, cor_out := 5 }

/-- Event logs of a concrete buy: the pool sends 94 COR to the router
and 5 COR to the token contract, the router forwards 89 COR to the
buyer. -/
def cexLogs : List RawLog :=
  [ { transactionHash := "0xt", logfrom := "0xpool", logto := "0xrouter",
      value := 94 },
    { transactionHash := "0xt",
      logfrom := "0xpool", logto := CORTENSOR_TOKEN_ADDRESS, value := 5 },
    { transactionHash := "0xt", logfrom := "0xrouter", logto := "0xme",
      value := 89 } ]

/-- The refinement result for cexLogs at eth_out_usd = 99. -/
def cexRefine : RefineResult :=
  { net_to_user_cor := 89, router_fee_cor := 0, router_received_cor := 94,
    actual_tax_cor := 5, gross_from_pool_cor := 99, unit_price_usd := 1,
    tax_usd := 5, router_fee_usd := 0 }

/-! Theorems. -/

/-- Auxiliary: pyRound evaluates to the floor scaled back when the
scaled fractional part is below one half. -/
theorem pyRound_eq_low (x : ℚ) (k : ℕ) (n : ℤ)
    (h1 : (n : ℚ) ≤ x * 10 ^ k) (h2 : x * 10 ^ k - n < 1/2) :
    pyRound x k = (n : ℚ) / 10 ^ k := by
  have hf : ⌊x * 10 ^ k⌋ = n := by
    rw [Int.floor_eq_iff]
    exact ⟨h1, by linarith⟩
  unfold pyRound roundHalfEven
  rw [hf, if_pos h2]

/-- Auxiliary: pyRound evaluates to floor plus one scaled back when the
scaled fractional part is above one half. -/
theorem pyRound_eq_high (x : ℚ) (k : ℕ) (n : ℤ)
    (h1 : x * 10 ^ k < n + 1) (h2 : 1/2 < x * 10 ^ k - n) :
    pyRound x k = ((n : ℚ) + 1) / 10 ^ k := by
  have hf : ⌊x * 10 ^ k⌋ = n := by
    rw [Int.floor_eq_iff]
    exact ⟨by linarith, by linarith⟩
  unfold pyRound roundHalfEven
  rw [hf, if_neg (by linarith), if_pos h2]
  push_cast
  ring

/-- Claim C3: whenever the token flow carries the stake tag, the
classifier returns trade type stake with zero tax and zero tax rate,
regardless of every other flow value, so such a pair is never
classified as buy. -/
theorem classifier_stake_tag_dominates (ef : EthFlow) (cf : CorFlow)
    (h : cf.stake_tag = some "stake") :
    classify_trade ef cf = ("stake", 0, 0) := by
  unfold classify_trade
  rw [if_pos h]

/-- Witness for classifier_stake_tag_dominates at a flow that would
also match the buy rule (tokenIn and ethOut positive, ethIn zero). -/
theorem classifier_stake_tag_dominates_witness :
    classify_trade { eth_in := 0, eth_out := 2, gas_eth := 1/100, sources := [] }
      { cor_in := 50, cor_out := 0, stake_tag := some "stake",
        sources := ["incoming_external"] } = ("stake", 0, 0) :=
  classifier_stake_tag_dominates _ _ rfl

/-- Claim C4: with no stake tag, no internal tag, tokenIn positive,
ethOut positive and ethIn zero, the classifier returns buy with tax
rate 5 percent and token tax tokenIn times 0.05 over 0.95; at
tokenIn = 95 the tax is exactly 5 and the gross estimate exactly 100. -/
theorem classifier_buy_rule (ef : EthFlow) (cf : CorFlow)
    (hst : cf.stake_tag = none)
    (hint : ¬ ("internal_in" ∈ ef.sources ++ cf.sources ∨
        "internal_out" ∈ ef.sources ++ cf.sources))
    (hin : cf.cor_in > 0) (hout : ef.eth_out > 0) (hzero : ef.eth_in = 0) :
    classify_trade ef cf = ("buy", cf.cor_in * (5/100) / (95/100), 5/100)
    ∧ (cf.cor_in = 95 →
        cf.cor_in * (5/100) / (95/100) = 5 ∧
        cf.cor_in + cf.cor_in * (5/100) / (95/100) = 100) := by
  have hne : ef.eth_out ≠ 0 := ne_of_gt hout
  constructor
  · unfold classify_trade
    rw [if_neg (by simp [hst]), if_neg (by simp [hst]),
        if_neg (by tauto), if_neg (by tauto), if_neg (by tauto),
        if_pos ⟨hin, hout, hzero⟩]
  · intro h95
    rw [h95]
    norm_num

/-- Witness for classifier_buy_rule at tokenIn = 95, ethOut = 2. -/
theorem classifier_buy_rule_witness :
    classify_trade { eth_in := 0, eth_out := 2, gas_eth := 0, sources := [] }
        { cor_in := 95, cor_out := 0, stake_tag := none,
          sources := ["incoming_external"] }
      = ("buy", (95 : ℚ) * (5/100) / (95/100), 5/100)
    ∧ ((95 : ℚ) * (5/100) / (95/100) = 5 ∧
       (95 : ℚ) + 95 * (5/100) / (95/100) = 100) := by
  have h := classifier_buy_rule
    { eth_in := 0, eth_out := 2, gas_eth := 0, sources := [] }
    { cor_in := 95, cor_out := 0, stake_tag := none,
      sources := ["incoming_external"] }
    rfl (by simp) (by norm_num) (by norm_num) rfl
  exact ⟨h.1, h.2 rfl⟩

/-- Claim C10: a transaction with zero ETH flow, zero token flow and
positive gas classifies as unknown with zero tax, yet the replay step
still charges the gas, strictly decreasing the ETH balance. -/
theorem zero_flow_gas_only_unknown (g : ℚ) (st : LedgerState) (hg : 0 < g) :
    classify_trade { eth_in := 0, eth_out := 0, gas_eth := g, sources := [] }
        emptyCorFlow = ("unknown", 0, 0)
    ∧ (apply_row st
        { trade_type := "unknown", eth_in := 0, eth_out := 0,
          gas_fee_eth := g, cor_in := 0, cor_out := 0 }).eth = st.eth - g
    ∧ st.eth - g < st.eth := by
  refine ⟨?_, ?_, by linarith⟩
  · norm_num [classify_trade, emptyCorFlow]
    decide
  · norm_num [apply_row]
    ring

/-- Witness for zero_flow_gas_only_unknown at gas = 0.01 from the
zero state. -/
theorem zero_flow_gas_only_unknown_witness :
    classify_trade { eth_in := 0, eth_out := 0, gas_eth := 1/100, sources := [] }
        emptyCorFlow = ("unknown", 0, 0)
    ∧ (apply_row initState
        { trade_type := "unknown", eth_in := 0, eth_out := 0,
          gas_fee_eth := 1/100, cor_in := 0, cor_out := 0 }).eth
        = initState.eth - 1/100
    ∧ initState.eth - 1/100 < initState.eth :=
  zero_flow_gas_only_unknown (1/100) initState (by norm_num)

/-- Claim C2 (failing evaluation): the oracle caches the unavailable
sentinel as price 0.0, but the cache test is Python truthiness, so a
cached 0.0 does not short-circuit: the next call for the same bucket
issues a provider fetch and returns the provider price, not the cached
sentinel.  A truthy cached price does short-circuit with no fetch, and
timestamps 301 and 599 share one 5-minute bucket. -/
theorem sentinel_cache_not_honored :
    pyTruthyOpt (some 0) = false
    ∧ get_eth_price_fiat (some 0)
        { coingecko_nearest := some 10, cryptocompare_nearest := none,
          coingecko_wide_prices := [] } = (10, "coingecko", 1)
    ∧ get_eth_price_fiat (some 2000)
        { coingecko_nearest := some 10, cryptocompare_nearest := none,
          coingecko_wide_prices := [] } = (2000, "cache", 0)
    ∧ bucket_5min 301 = bucket_5min 599 := by
  refine ⟨by norm_num [pyTruthyOpt], ?_, ?_, by decide⟩
  · norm_num [get_eth_price_fiat, pyTruthyOpt]
  · norm_num [get_eth_price_fiat, pyTruthyOpt]

/-- Claim C9 (counterexample): one identical response sequence, a 429
with no Retry-After followed by success, on which the two GET
routines sleep different durations (1.2 versus 1.5 seconds), so they
are not identical. -/
theorem http_get_routines_differ_cex :
    etherscan_get [HttpResp.rateLimited none, HttpResp.ok 5]
      = ([12/10], some 5)
    ∧ oracle_http_get [HttpResp.rateLimited none, HttpResp.ok 5]
      = ([15/10], some 5)
    ∧ etherscan_get [HttpResp.rateLimited none, HttpResp.ok 5]
      ≠ oracle_http_get [HttpResp.rateLimited none, HttpResp.ok 5] := by
  have h1 : etherscan_get [HttpResp.rateLimited none, HttpResp.ok 5]
      = ([12/10], some 5) := by
    norm_num [etherscan_get, etherscan_get_aux]
  have h2 : oracle_http_get [HttpResp.rateLimited none, HttpResp.ok 5]
      = ([15/10], some 5) := by
    norm_num [oracle_http_get, oracle_http_get_aux]
  refine ⟨h1, h2, ?_⟩
  rw [h1, h2]
  simp only [ne_eq, Prod.mk.injEq, List.cons.injEq, and_true, true_and]
  norm_num

/-- Claim C9 (amended): both routines are bounded retry loops with
exponential backoff, but with different parameters: the chain client
makes 3 attempts, sleeping 1.0, 2.0, 4.0 seconds on repeated plain
failures, and sleeps 1.2 ignoring Retry-After on a first 429; the
oracle makes 4 attempts, sleeping 1.2, 2.4, 4.8, 9.6 on repeated
plain failures, and honors Retry-After on a 429. -/
theorem http_get_retry_parameters (ra : ℚ) (rest : List HttpResp) :
    etherscan_get [HttpResp.fail, HttpResp.fail, HttpResp.fail] = ([1, 2, 4], none)
    ∧ oracle_http_get [HttpResp.fail, HttpResp.fail, HttpResp.fail, HttpResp.fail]
        = ([12/10, 24/10, 48/10, 96/10], none)
    ∧ (etherscan_get (HttpResp.rateLimited (some ra) :: rest)).1.head?
        = some (12/10)
    ∧ (oracle_http_get (HttpResp.rateLimited (some ra) :: rest)).1.head?
        = some ra := by
  refine ⟨by norm_num [etherscan_get, etherscan_get_aux],
          by norm_num [oracle_http_get, oracle_http_get_aux], ?_, ?_⟩
  · show (etherscan_get_aux _ 0 3).1.head? = _
    norm_num [etherscan_get_aux]
  · show (oracle_http_get_aux _ 0 4).1.head? = _
    norm_num [oracle_http_get_aux]

/-- Witness for http_get_retry_parameters at Retry-After 7 and an
empty remainder of the response stream. -/
theorem http_get_retry_parameters_witness :
    (etherscan_get [HttpResp.rateLimited (some 7)]).1.head? = some (12/10)
    ∧ (oracle_http_get [HttpResp.rateLimited (some 7)]).1.head? = some 7 :=
  ⟨(http_get_retry_parameters 7 []).2.2.1, (http_get_retry_parameters 7 []).2.2.2⟩

/-- Auxiliary: Python "x or 0.0" is the identity on floats. -/
theorem pyOr_zero (x : ℚ) : pyOr x 0 = x := by
  unfold pyOr
  split <;> simp_all

/-- Claim C5: whenever the refiner succeeds on the filtered same-hash
logs, the result satisfies gross = routerReceived + actualTax with
gross positive and unit price = ethSpentUsd / gross, and the row
update overwrites the tax-token field with actualTax and the unit
price with ethSpentUsd / gross, superseding the 5 percent heuristic. -/
theorem refinement_computes (logs : List RawLog)
    (tx_hash my_addr : String) (eth ci t0 : ℚ) (rf : RefineResult)
    (h : refine_buy_with_logs (some logs) tx_hash my_addr eth = some rf) :
    rf.gross_from_pool_cor = rf.router_received_cor + rf.actual_tax_cor
    ∧ 0 < rf.gross_from_pool_cor
    ∧ rf.unit_price_usd = eth / rf.gross_from_pool_cor
    ∧ (buy_with_refine ci t0 eth (some rf)).tax_cor = rf.actual_tax_cor
    ∧ (buy_with_refine ci t0 eth (some rf)).unit_price_usd
        = some (eth / rf.gross_from_pool_cor) := by
  unfold refine_buy_with_logs at h
  split at h
  · exact absurd h (by simp)
  · rename_i logs2 heq
    injection heq with heq2
    subst heq2
    split at h
    · exact absurd h (by simp)
    · split at h
      · exact absurd h (by simp)
      · split at h
        · exact absurd h (by simp)
        · rename_i firstLeg restLegs hlegs
          split at h
          · exact absurd h (by simp)
          · rename_i hgross
            simp only [Option.some.injEq] at h
            subst h
            have hpos : (0:ℚ) <
                routerReceivedOf (transfersOf logs tx_hash) firstLeg.logfrom
                  + actualTaxOf (transfersOf logs tx_hash) := lt_of_not_le hgross
            refine ⟨rfl, hpos, rfl, ?_, ?_⟩
            · simp only [buy_with_refine]
              rw [if_pos hpos]
              exact pyOr_zero _
            · simp only [buy_with_refine]
              rw [if_pos hpos]
              rcases eq_or_ne (eth /
                  (routerReceivedOf (transfersOf logs tx_hash) firstLeg.logfrom
                    + actualTaxOf (transfersOf logs tx_hash))) 0 with hE | hE
              · have heth : eth = 0 := by
                  rcases div_eq_zero_iff.mp hE with h0 | h0
                  · exact h0
                  · exact absurd h0 (ne_of_gt hpos)
                subst heth
                by_cases hci : ci + t0 > 0 <;>
                  simp [buy_first_pass, hci, pyOptOr, pyOr, zero_div]
              · simp [pyOr, hE]

/-- Witness for refinement_computes on cexLogs: routerReceived 94,
actualTax 5, ethSpentUsd 99 give gross 99, unit price 1, and the
tax-token field overwritten to 5. -/
theorem refinement_computes_witness :
    cexRefine.gross_from_pool_cor
      = cexRefine.router_received_cor + cexRefine.actual_tax_cor
    ∧ 0 < cexRefine.gross_from_pool_cor
    ∧ cexRefine.unit_price_usd = 99 / cexRefine.gross_from_pool_cor
    ∧ (buy_with_refine 94 5 99 (some cexRefine)).tax_cor
        = cexRefine.actual_tax_cor
    ∧ (buy_with_refine 94 5 99 (some cexRefine)).unit_price_usd
        = some (99 / cexRefine.gross_from_pool_cor) :=
  refinement_computes cexLogs "0xt" "0xme" 99 94 5 cexRefine (by
    simp [refine_buy_with_logs, cexLogs, transfersOf, routerReceivedOf,
      actualTaxOf, routerFeeOf, CORTENSOR_TOKEN_ADDRESS, cexRefine,
      List.filter_cons, List.filter_nil, beq_iff_eq, bne_iff_ne]
    norm_num)

/-- Claim C8: every failure path of the refiner yields none — log
fetch raised, empty log list, no transfer leg to the subject — any
successful result has positive gross (so gross at most zero never
survives), and with no refinement result the row keeps the untouched
first-pass estimates; no error is raised anywhere. -/
theorem refine_failure_falls_back (logs logs2 : List RawLog)
    (tx_hash my_addr : String) (eth ci t0 : ℚ)
    (hno : (transfersOf logs tx_hash).filter (fun t => t.logto == my_addr) = []) :
    refine_buy_with_logs none tx_hash my_addr eth = none
    ∧ refine_buy_with_logs (some []) tx_hash my_addr eth = none
    ∧ refine_buy_with_logs (some logs) tx_hash my_addr eth = none
    ∧ (∀ rf, refine_buy_with_logs (some logs2) tx_hash my_addr eth = some rf
        → 0 < rf.gross_from_pool_cor)
    ∧ buy_with_refine ci t0 eth none = buy_first_pass ci t0 eth := by
  refine ⟨rfl, rfl, ?_, ?_, rfl⟩
  · unfold refine_buy_with_logs
    split
    · rfl
    · rename_i l2 heq
      injection heq with heq2
      subst heq2
      split
      · rfl
      · split
        · rfl
        · rw [hno]
  · intro rf hrf
    unfold refine_buy_with_logs at hrf
    split at hrf
    · exact absurd hrf (by simp)
    · rename_i l2 heq
      injection heq with heq2
      subst heq2
      split at hrf
      · exact absurd hrf (by simp)
      · split at hrf
        · exact absurd hrf (by simp)
        · split at hrf
          · exact absurd hrf (by simp)
          · split at hrf
            · exact absurd hrf (by simp)
            · rename_i hgross
              simp only [Option.some.injEq] at hrf
              subst hrf
              exact lt_of_not_le hgross

/-- Witness for refine_failure_falls_back: a log list whose only leg
goes to a third party, so nothing reaches the subject address. -/
theorem refine_failure_falls_back_witness :
    refine_buy_with_logs none "0xt" "0xme" 3 = none
    ∧ refine_buy_with_logs (some []) "0xt" "0xme" 3 = none
    ∧ refine_buy_with_logs
        (some [{ transactionHash := "0xt", logfrom := "0xa", logto := "0xb",
                 value := 7 }]) "0xt" "0xme" 3 = none
    ∧ (∀ rf, refine_buy_with_logs (some []) "0xt" "0xme" 3 = some rf
        → 0 < rf.gross_from_pool_cor)
    ∧ buy_with_refine 95 5 3 none = buy_first_pass 95 5 3 :=
  refine_failure_falls_back
    [{ transactionHash := "0xt", logfrom := "0xa", logto := "0xb", value := 7 }]
    [] "0xt" "0xme" 3 95 5
    (by simp [transfersOf, List.filter_cons, beq_iff_eq])

/-- Claim C7: a normal transaction sending ETH from the subject to
another address in the user's own set is tagged internal_out and
internal, yet with zero token flow the classifier still returns
eth_transfer — internal tagging alone never suppresses ETH-transfer
classification. -/
theorem internal_eth_transfer_classification (a b : String) (v g : ℚ)
    (my : List String) (hmem : b ∈ my) (hne : b ≠ a) (hv : v ≠ 0) :
    "internal_out" ∈ (compute_eth_flow_single
        { hash := "0xh", txfrom := a, txto := b, value_eth := v, gas_eth := g }
        a my).sources
    ∧ "internal" ∈ (compute_eth_flow_single
        { hash := "0xh", txfrom := a, txto := b, value_eth := v, gas_eth := g }
        a my).sources
    ∧ classify_trade (compute_eth_flow_single
        { hash := "0xh", txfrom := a, txto := b, value_eth := v, gas_eth := g }
        a my) emptyCorFlow = ("eth_transfer", 0, 0) := by
  have hflow : compute_eth_flow_single
      { hash := "0xh", txfrom := a, txto := b, value_eth := v, gas_eth := g }
      a my
      = { eth_in := 0, eth_out := v, gas_eth := g,
          sources := ["internal_out", "internal"] } := by
    unfold compute_eth_flow_single
    simp [hmem, hne]
  rw [hflow]
  refine ⟨by simp, by simp, ?_⟩
  norm_num [classify_trade, emptyCorFlow, hv]
  decide

/-- Witness for internal_eth_transfer_classification: subject 0xa
sends 1 ETH to 0xb, both in the user's own address set. -/
theorem internal_eth_transfer_classification_witness :
    "internal_out" ∈ (compute_eth_flow_single
        { hash := "0xh", txfrom := "0xa", txto := "0xb", value_eth := 1,
          gas_eth := 1/100 } "0xa" ["0xa", "0xb"]).sources
    ∧ "internal" ∈ (compute_eth_flow_single
        { hash := "0xh", txfrom := "0xa", txto := "0xb", value_eth := 1,
          gas_eth := 1/100 } "0xa" ["0xa", "0xb"]).sources
    ∧ classify_trade (compute_eth_flow_single
        { hash := "0xh", txfrom := "0xa", txto := "0xb", value_eth := 1,
          gas_eth := 1/100 } "0xa" ["0xa", "0xb"]) emptyCorFlow
      = ("eth_transfer", 0, 0) :=
  internal_eth_transfer_classification "0xa" "0xb" 1 (1/100) ["0xa", "0xb"]
    (by decide) (by decide) (by norm_num)

/-- Auxiliary: round-half-to-even moves a rational by at most one half. -/
theorem roundHalfEven_err (x : ℚ) : |(roundHalfEven x : ℚ) - x| ≤ 1/2 := by
  have h1 : (⌊x⌋ : ℚ) ≤ x := Int.floor_le x
  have h2 : x < ⌊x⌋ + 1 := Int.lt_floor_add_one x
  unfold roundHalfEven
  split_ifs with ha hb hc
  · rw [abs_le]
    constructor <;> linarith
  · rw [abs_le]
    push_cast
    constructor <;> linarith
  · have hx : x - ⌊x⌋ = 1/2 := le_antisymm (not_lt.mp hb) (not_lt.mp ha)
    rw [abs_le]
    constructor <;> linarith
  · have hx : x - ⌊x⌋ = 1/2 := le_antisymm (not_lt.mp hb) (not_lt.mp ha)
    rw [abs_le]
    push_cast
    constructor <;> linarith

/-- Auxiliary: rounding to k decimals moves a rational by at most half
a unit in the last place. -/
theorem pyRound_err (x : ℚ) (k : ℕ) : |pyRound x k - x| ≤ 1/2 / 10 ^ k := by
  have hpow : (0:ℚ) < 10 ^ k := by positivity
  have h := roundHalfEven_err (x * 10 ^ k)
  have hrw : pyRound x k - x
      = ((roundHalfEven (x * 10 ^ k) : ℚ) - x * 10 ^ k) / 10 ^ k := by
    unfold pyRound
    field_simp
    ring
  rw [hrw, abs_div, abs_of_pos hpow]
  gcongr

/-- Auxiliary: every annotated row satisfies the owned-versus-sum
bound forced by rounding the three columns independently. -/
theorem annotate_owned_bound (st : LedgerState) (r : Row) :
    |(annotate st r).2.cor_owned_after
      - ((annotate st r).2.cor_wallet_after + (annotate st r).2.cor_staked_after)|
      ≤ 3/2 / 10 ^ 6 := by
  have e1 := pyRound_err ((apply_row st r).cor_wallet + (apply_row st r).cor_staked) 6
  have e2 := pyRound_err (apply_row st r).cor_wallet 6
  have e3 := pyRound_err (apply_row st r).cor_staked 6
  show |pyRound ((apply_row st r).cor_wallet + (apply_row st r).cor_staked) 6
    - (pyRound (apply_row st r).cor_wallet 6 + pyRound (apply_row st r).cor_staked 6)|
      ≤ 3/2 / 10 ^ 6
  rw [abs_le] at e1 e2 e3 ⊢
  constructor <;> linarith [e1.1, e1.2, e2.1, e2.2, e3.1, e3.2]

/-- Auxiliary: every row of a replay output is the annotation of some
state and row. -/
theorem replayAux_mem (rows : List Row) : ∀ (st : LedgerState) (ar : AnnotatedRow),
    ar ∈ replayAux st rows → ∃ st2 r, ar = (annotate st2 r).2 := by
  induction rows with
  | nil =>
    intro st ar h
    simp [replayAux] at h
  | cons r rs ih =>
    intro st ar h
    simp only [replayAux, List.mem_cons] at h
    rcases h with h | h
    · exact ⟨st, r, h⟩
    · exact ih _ _ h

/-- Claim C1 (counterexample): replaying a 0.0000008 COR receipt and
then a 0.0000004 COR stake, the stake row reports cor_owned_after
0.000001 but cor_wallet_after and cor_staked_after both 0, because
the three columns are rounded to 6 decimals independently; the
difference 0.000001 exceeds the claimed 1e-9 tolerance. -/
theorem owned_reported_mismatch_cex :
    cexAnnotated.row.trade_type = "stake"
    ∧ cexAnnotated.cor_owned_after = 1/1000000
    ∧ cexAnnotated.cor_wallet_after = 0
    ∧ cexAnnotated.cor_staked_after = 0
    ∧ ¬ (|cexAnnotated.cor_owned_after
          - (cexAnnotated.cor_wallet_after + cexAnnotated.cor_staked_after)|
        ≤ 1/1000000000) := by
  have hp8a : pyRound ((8:ℚ)/10000000) 8 = 8/10000000 := by
    have h := pyRound_eq_low ((8:ℚ)/10000000) 8 80 (by norm_num) (by norm_num)
    rw [h]; norm_num
  have hp0 : ∀ k : ℕ, pyRound 0 k = 0 := fun k => by
    have h := pyRound_eq_low 0 k 0 (by norm_num) (by norm_num)
    rw [h]; norm_num
  have hp8b : pyRound ((4:ℚ)/10000000) 8 = 4/10000000 := by
    have h := pyRound_eq_low ((4:ℚ)/10000000) 8 40 (by norm_num) (by norm_num)
    rw [h]; norm_num
  have hc1 : classify_trade emptyEthFlow
      { cor_in := 8/10000000, cor_out := 0, stake_tag := none,
        sources := ["incoming_external"] } = ("airdrop_or_other", 0, 0) := by
    norm_num [classify_trade, emptyEthFlow]
    decide
  have hc2 : classify_trade emptyEthFlow
      { cor_in := 0, cor_out := 4/10000000, stake_tag := some "stake",
        sources := ["self_out"] } = ("stake", 0, 0) := by
    simp [classify_trade]
  have hrow1 : cexRow1 = cexRowLit1 := by
    simp [cexRow1, cexRowLit1, cexCf1, hc1, hp8a, hp0]
  have hrow2 : cexRow2 = cexRowLit2 := by
    simp [cexRow2, cexRowLit2, cexCf2, hc2, hp8b, hp0]
  have hst1 : apply_row initState cexRowLit1 = cexSt1 := by
    simp [apply_row, initState, cexRowLit1, cexSt1]
  have hst2 : apply_row cexSt1 cexRowLit2 = cexSt2 := by
    simp [apply_row, cexSt1, cexRowLit2, cexSt2]
    norm_num
  have hA0 : cexAnnotated = (annotate (annotate initState cexRow1).1 cexRow2).2 := by
    simp [cexAnnotated, replay, replayAux]
  have hA1 : (annotate initState cexRow1).1 = cexSt1 := by
    rw [show (annotate initState cexRow1).1 = apply_row initState cexRow1 from rfl,
      hrow1]
    exact hst1
  have hA2 : cexAnnotated = (annotate cexSt1 cexRowLit2).2 := by
    rw [hA0, hA1, hrow2]
  have howned : cexAnnotated.cor_owned_after = 1/1000000 := by
    rw [hA2]
    show pyRound ((apply_row cexSt1 cexRowLit2).cor_wallet
      + (apply_row cexSt1 cexRowLit2).cor_staked) 6 = 1/1000000
    rw [hst2]
    show pyRound ((4:ℚ)/10000000 + 4/10000000) 6 = 1/1000000
    have h := pyRound_eq_high ((4:ℚ)/10000000 + 4/10000000) 6 0
      (by norm_num) (by norm_num)
    rw [h]; norm_num
  have hwallet : cexAnnotated.cor_wallet_after = 0 := by
    rw [hA2]
    show pyRound (apply_row cexSt1 cexRowLit2).cor_wallet 6 = 0
    rw [hst2]
    show pyRound ((4:ℚ)/10000000) 6 = 0
    have h := pyRound_eq_low ((4:ℚ)/10000000) 6 0 (by norm_num) (by norm_num)
    rw [h]; norm_num
  have hstaked : cexAnnotated.cor_staked_after = 0 := by
    rw [hA2]
    show pyRound (apply_row cexSt1 cexRowLit2).cor_staked 6 = 0
    rw [hst2]
    show pyRound ((4:ℚ)/10000000) 6 = 0
    have h := pyRound_eq_low ((4:ℚ)/10000000) 6 0 (by norm_num) (by norm_num)
    rw [h]; norm_num
  have htrade : cexAnnotated.row.trade_type = "stake" := by
    rw [hA2]
    rfl
  refine ⟨htrade, howned, hwallet, hstaked, ?_⟩
  rw [howned, hwallet, hstaked]
  have habs : |(1:ℚ)/1000000 - (0 + 0)| = 1/1000000 := by
    rw [show (1:ℚ)/1000000 - (0 + 0) = 1/1000000 by norm_num]
    exact abs_of_pos (by norm_num)
  rw [habs]
  norm_num

/-- Claim C1 (amended): for every row the replay emits, the reported
cor_owned_after differs from cor_wallet_after plus cor_staked_after by
at most 1.5e-6 — the bound forced by rounding the derived owned value
and the two running totals to 6 decimals independently — not by the
claimed 1e-9; the unrounded owned value is exactly wallet plus staked
by construction. -/
theorem owned_reported_within_rounding (rows : List Row) (ar : AnnotatedRow)
    (h : ar ∈ replay rows) :
    |ar.cor_owned_after - (ar.cor_wallet_after + ar.cor_staked_after)|
      ≤ 3/2 / 10 ^ 6 := by
  obtain ⟨st2, r, hr⟩ := replayAux_mem rows initState ar h
  rw [hr]
  exact annotate_owned_bound st2 r

/-- Witness for owned_reported_within_rounding on a one-row ledger. -/
theorem owned_reported_within_rounding_witness :
    |witnessAnnotated.cor_owned_after
      - (witnessAnnotated.cor_wallet_after + witnessAnnotated.cor_staked_after)|
      ≤ 3/2 / 10 ^ 6 :=
  owned_reported_within_rounding [witnessRow] witnessAnnotated
    (List.mem_cons_self _ _)

/-- Claim C6: a stake or unstake row leaves the reported
cor_owned_after equal to the prior row's value for that address, and
equal to 0 when it is the address's first row: the wallet delta moves
between wallet and staked, preserving their sum. -/
theorem stake_unstake_preserve_owned (st : LedgerState) (prev r : Row)
    (h : r.trade_type = "stake" ∨ r.trade_type = "unstake") :
    (annotate (annotate st prev).1 r).2.cor_owned_after
      = (annotate st prev).2.cor_owned_after
    ∧ (annotate initState r).2.cor_owned_after = 0 := by
  have key : ∀ s : LedgerState,
      (apply_row s r).cor_wallet + (apply_row s r).cor_staked
        = s.cor_wallet + s.cor_staked := by
    intro s
    rcases h with h | h
    · simp [apply_row, h]
      ring
    · simp [apply_row, h]
  constructor
  · show pyRound ((apply_row (annotate st prev).1 r).cor_wallet
        + (apply_row (annotate st prev).1 r).cor_staked) 6 = _
    rw [key]
    rfl
  · show pyRound ((apply_row initState r).cor_wallet
        + (apply_row initState r).cor_staked) 6 = 0
    rw [key]
    show pyRound ((0:ℚ) + 0) 6 = 0
    have hlow := pyRound_eq_low ((0:ℚ) + 0) 6 0 (by norm_num) (by norm_num)
    rw [hlow]
    norm_num

/-- Witness for stake_unstake_preserve_owned: a stake of 5 COR after a
transfer row, and the same stake as a first row. -/
theorem stake_unstake_preserve_owned_witness :
    (annotate (annotate initState witnessRow).1 wStakeRow).2.cor_owned_after
      = (annotate initState witnessRow).2.cor_owned_after
    ∧ (annotate initState wStakeRow).2.cor_owned_after = 0 :=
  stake_unstake_preserve_owned initState witnessRow wStakeRow (Or.inl rfl)
